import Mathlib

/-!
Verification of the dnf-ci continuous-integration driver.

The repository is sequential glue around external process invocations.  We
shallowly embed each function of `dnf_ci/__init__.py` and `dnf_ci/cli.py` as a
pure Lean function over an explicit environment recording the exit status and
captured output of every external process the function may launch.  A
`subprocess.call` whose result the code inspects becomes a read of the
environment; `subprocess.check_output` becomes an `Except` value raising a
`CalledProcessError`; the sequence of launched command vectors is returned as a
trace so that claims about which commands run can be stated.
-/

/-- Captured bytes of a process's standard output. -/
abbrev Bytes := List Nat

/-- Exit status and captured output of one external process invocation. -/
structure ExecResult where
  status : Int
  output : Bytes
deriving DecidableEq

/-- Environment for `uncommitted_changes`: the exit statuses of the three git
commands it may launch. -/
structure GitEnv where
  refreshStatus : Int
  diffFilesStatus : Int
  diffIndexStatus : Int
deriving DecidableEq

/-- `uicmd` from `uncommitted_changes`: the index-refresh git command. -/
def uicmd (repository : String) : List String :=
  ["git", "-C", repository, "update-index", "-q", "--refresh"]

/-- `dfcmd` from `uncommitted_changes`: the unstaged-diff git command. -/
def dfcmd (repository : String) : List String :=
  ["git", "-C", repository, "diff-files", "--quiet"]

/-- `dicmd` from `uncommitted_changes`: the staged-diff git command. -/
def dicmd (repository : String) : List String :=
  ["git", "-C", repository, "diff-index", "--quiet", "HEAD", "--"]

/-- `uncommitted_changes(repository)`: runs the refresh command ignoring its
status, then evaluates `bool(call(dfcmd) or call(dicmd))` with Python's
short-circuit `or`.  Returns the boolean result together with the trace of
git commands actually launched. -/
def uncommitted_changes (env : GitEnv) (repository : String) :
    Bool × List (List String) :=
  if env.diffFilesStatus ≠ 0 then
    (true, [uicmd repository, dfcmd repository])
  else
    (decide (env.diffIndexStatus ≠ 0),
     [uicmd repository, dfcmd repository, dicmd repository])

/-- `subprocess.CalledProcessError` as used by the isolation session: an exit
status, an optional command vector and the accumulated output. -/
structure CalledProcessError where
  returncode : Int
  cmd : Option (List String)
  output : Bytes
deriving DecidableEq

/-- Environment for `_exec_isolation`: results of the privileged rm step, the
dependency-install step, the copy-in step, the privileged chown step, and of
the i-th command of the batch. -/
structure IsolationEnv where
  rmResult : ExecResult
  installStatus : Int
  copyinStatus : Int
  chownResult : ExecResult
  run : Nat → ExecResult

/-- The fixed staging path inside the root. -/
def mockdn : String := "/tmp/dnf-ci"

/-- The command vector built by `_mock_exec` (with `--unpriv` inserted at
index 3 when not privileged). -/
def mock_exec_cmd (root cmdline cwd : String) (privileged : Bool) :
    List String :=
  if privileged then
    ["mock", "--quiet", "--root=" ++ root, "--cwd=" ++ cwd, "--chroot",
     cmdline]
  else
    ["mock", "--quiet", "--root=" ++ root, "--unpriv", "--cwd=" ++ cwd,
     "--chroot", cmdline]

/-- `_mock_exec`: `subprocess.check_output` on the mock command — returns the
captured output, or raises a `CalledProcessError` carrying the status, the
command vector and the output when the status is non-zero. -/
def _mock_exec (r : ExecResult) (cmd : List String) :
    Except CalledProcessError Bytes :=
  if r.status ≠ 0 then .error ⟨r.status, some cmd, r.output⟩ else .ok r.output

/-- The shell command removing the staging path. -/
def rmcmdl : String := "rm --recursive --force " ++ mockdn

/-- The shell command fixing ownership of the staging path. -/
def chcmdl : String := "chown --recursive :mockbuild " ++ mockdn

/-- The dependency-install command vector (`incmd`). -/
def incmd (root : String) (dependencies : List String) : List String :=
  ["mock", "--quiet", "--root=" ++ root, "--install"] ++ dependencies

/-- The copy-in command vector (`cpcmd`). -/
def cpcmd (root cwd : String) : List String :=
  ["mock", "--quiet", "--root=" ++ root, "--copyin", cwd, mockdn]

/-- One iteration of the `for cmdline in cmdlines` loop of `_exec_isolation`:
run the command via `_mock_exec`; on success append its output; on failure
record status and command only when no failure was remembered yet, and append
the failure's output. -/
def isolation_step (root : String) (err : CalledProcessError)
    (cmdline : String) (r : ExecResult) : CalledProcessError :=
  match _mock_exec r (mock_exec_cmd root cmdline mockdn false) with
  | .ok out => { err with output := err.output ++ out }
  | .error e =>
      { returncode := if err.returncode = 0 then e.returncode
                      else err.returncode
        cmd := if err.returncode = 0 then e.cmd else err.cmd
        output := err.output ++ e.output }

/-- The whole command loop of `_exec_isolation`, threading the accumulator
`err` through the commands; `i` is the index of the head command in the
environment. -/
def isolation_loop (run : Nat → ExecResult) (root : String) :
    List String → Nat → CalledProcessError → CalledProcessError
  | [], _, err => err
  | c :: cs, i, err =>
      isolation_loop run root cs (i + 1) (isolation_step root err c (run i))

/-- `_exec_isolation(cmdlines, cwd, dependencies, root)`: privileged rm
(checked), dependency install (status ignored), copy-in (status ignored),
privileged chown (checked), then the command loop; raise the accumulated
`CalledProcessError` when a non-zero status was remembered, otherwise return
the aggregated output.  The second component is the trace of launched command
vectors. -/
def _exec_isolation (env : IsolationEnv) (cmdlines : List String)
    (cwd : String) (dependencies : List String) (root : String) :
    Except CalledProcessError Bytes × List (List String) :=
  match _mock_exec env.rmResult (mock_exec_cmd root rmcmdl "." true) with
  | .error e => (.error e, [mock_exec_cmd root rmcmdl "." true])
  | .ok _ =>
    match _mock_exec env.chownResult (mock_exec_cmd root chcmdl "." true) with
    | .error e =>
        (.error e,
         [mock_exec_cmd root rmcmdl "." true, incmd root dependencies,
          cpcmd root cwd, mock_exec_cmd root chcmdl "." true])
    | .ok _ =>
        let err := isolation_loop env.run root cmdlines 0 ⟨0, none, []⟩
        ((if err.returncode ≠ 0 then .error err else .ok err.output),
         [mock_exec_cmd root rmcmdl "." true, incmd root dependencies,
          cpcmd root cwd, mock_exec_cmd root chcmdl "." true] ++
           cmdlines.map (fun c => mock_exec_cmd root c mockdn false))

/-- Concatenation, in invocation order, of the outputs of commands
`i, i+1, ..., i+n-1` of the environment. -/
def aggFrom (run : Nat → ExecResult) (i n : Nat) : Bytes :=
  match n with
  | 0 => []
  | m + 1 => (run i).output ++ aggFrom run (i + 1) m

/-- Index and command line of the first command of the batch whose exit
status is non-zero, scanning from index `i`. -/
def firstFailure (run : Nat → ExecResult) :
    List String → Nat → Option (Nat × String)
  | [], _ => none
  | c :: cs, i =>
      if (run i).status ≠ 0 then some (i, c) else firstFailure run cs (i + 1)

/-- The `ncmd` lambda of `run_tests`: one nosetests command line. -/
def ncmd (version test : String) (locale : String := "en_US.UTF-8")
    (capture : Bool := true) : String :=
  "LANG=" ++ locale ++ " LC_ALL=" ++ locale ++ " nosetests-" ++ version ++
    " --quiet" ++ (if capture then "" else " --nocapture") ++ " " ++ test

/-- The `tcmds` chain of `run_tests`: three locale/capture variants for each
of the two interpreter versions, flattened in order. -/
def test_cmdlines (tests : String) : List String :=
  ["2.7", "3.4"].flatMap fun version =>
    [ncmd version tests, ncmd version tests "cs_CZ.utf8",
     ncmd version tests "en_US.UTF-8" false]

/-- `run_tests(tests, cwd, dependencies, root)`: delegates to
`_exec_isolation` with the six nosetests command lines and the dependency
list extended by the two nose packages; catches `CalledProcessError`, keeping
its status and output; prints the output; returns `not status`.  Result:
(the returned boolean, the printed output, the trace of launched
commands). -/
def run_tests (env : IsolationEnv) (tests cwd : String)
    (dependencies : List String) (root : String) :
    Bool × Bytes × List (List String) :=
  let r := _exec_isolation env (test_cmdlines tests) cwd
    (dependencies ++ ["python-nose", "python3-nose"]) root
  match r.1 with
  | .ok output => (true, output, r.2)
  | .error e => (decide (e.returncode = 0), e.output, r.2)

/-- A sample isolation environment whose setup steps succeed and whose every
command exits with status 1 and output byte 2. -/
def sampleFailEnv : IsolationEnv :=
  ⟨⟨0, []⟩, 0, 0, ⟨0, []⟩, fun _ => ⟨1, [2]⟩⟩

/-- A sample isolation environment whose setup steps succeed and whose every
command exits with status 0 and output byte 5. -/
def sampleOkEnv : IsolationEnv :=
  ⟨⟨0, []⟩, 0, 0, ⟨0, []⟩, fun _ => ⟨0, [5]⟩⟩

/-- Python text-file iteration: split a character list into lines, cutting
after each newline character and keeping the terminators (the final line may
lack one). -/
def splitNl : List Char → List (List Char)
  | [] => []
  | c :: rest =>
      if c = '\n' then ['\n'] :: splitNl rest
      else
        match splitNl rest with
        | [] => [[c]]
        | l :: ls => (c :: l) :: ls

/-- The spec-file rewrite inside `build_dnf`: `next(spec_file)` skips the
first line (`none` on an empty file, where `next` raises `StopIteration`),
`print('%global gitrev ' + revision)` writes the version declaration with
`revision = check_output(...).decode()[:-1]` (the archive output minus its
final character), and `print(line[:-1])` re-emits each remaining line minus
its final character, with `print` appending a newline. -/
def build_dnf_rewrite (content archiveOut : List Char) :
    Option (List Char) :=
  match splitNl content with
  | [] => none
  | _ :: rest =>
      some (("%global gitrev ".data ++ archiveOut.dropLast ++ ['\n']) ++
        (rest.map (fun l => l.dropLast ++ ['\n'])).flatten)

/-- Written from the spec's words for the amended C5: the revision-query
output minus its trailing newline (unchanged when there is none). -/
def stripTrailingNewline (s : List Char) : List Char :=
  if s.getLast? = some '\n' then s.dropLast else s

/-- The mockchain command vector built by `build_rpms`. -/
def mockchain_cmd (sources : List String) (destination root : String) :
    List String :=
  ["mockchain", "--root=" ++ root, "--localrepo=" ++ destination] ++ sources

/-- `build_rpms(sources, destination, root)`: run mockchain and raise
`ValueError('build failed')` — a domain error distinct from
`CalledProcessError` — iff its exit status is non-zero. -/
def build_rpms (mockchainStatus : Int) (sources : List String)
    (destination root : String) :
    Except String Unit × List (List String) :=
  ((if mockchainStatus ≠ 0 then .error "build failed" else .ok ()),
   [mockchain_cmd sources destination root])

/-- `sorted(set(arguments.arch))` in the driver: deduplicate the requested
architectures, then sort ascending. -/
def processedArches (arches : List String) : List String :=
  arches.dedup.mergeSort

/-- `_test_on_arch` reduced to its exit status: 1 when `run_tests` reports
failure for the architecture, else 0; `testFails` abstracts the per-
architecture test outcome. -/
def _test_on_arch (testFails : String → Bool) (arch : String) : Int :=
  if testFails arch then 1 else 0

/-- Python `a or b` on integers: `a` when truthy, else `b`. -/
def pyOr (a b : Int) : Int := if a ≠ 0 then a else b

/-- The driver `main` after argument parsing: exit 1 when the repository has
uncommitted changes, otherwise fold `status = _test_on_arch(...) or status`
over the sorted deduplicated architectures, starting from 0. -/
def cli_main (uncommitted : Bool) (testFails : String → Bool)
    (arches : List String) : Int :=
  if uncommitted then 1
  else
    (processedArches arches).foldl
      (fun status arch => pyOr (_test_on_arch testFails arch) status) 0

/-- C4: `uncommitted_changes` returns false iff both diff checks exit 0 and
true iff either exits non-zero, and its result never depends on the exit
status of the index-refresh step. -/
theorem uncommitted_changes_spec (env : GitEnv) (repository : String) :
    ((uncommitted_changes env repository).1 = false ↔
      env.diffFilesStatus = 0 ∧ env.diffIndexStatus = 0) ∧
    ((uncommitted_changes env repository).1 = true ↔
      (env.diffFilesStatus ≠ 0 ∨ env.diffIndexStatus ≠ 0)) ∧
    (∀ r : Int,
      (uncommitted_changes { env with refreshStatus := r } repository).1 =
        (uncommitted_changes env repository).1) := by
  unfold uncommitted_changes
  by_cases h : env.diffFilesStatus = 0 <;> simp [h]

/-- C10: when the unstaged-diff check exits non-zero, the staged-diff command
is never launched: the trace is exactly the refresh command followed by the
diff-files command. -/
theorem uncommitted_changes_short_circuit (env : GitEnv) (repository : String)
    (h : env.diffFilesStatus ≠ 0) :
    (uncommitted_changes env repository).2 =
      [uicmd repository, dfcmd repository] ∧
    dicmd repository ∉ (uncommitted_changes env repository).2 := by
  unfold uncommitted_changes
  rw [if_pos h]
  exact ⟨rfl, by simp [uicmd, dfcmd, dicmd]⟩

/-- Witness for C4 at a concrete environment. -/
theorem uncommitted_changes_spec_witness :
    ((uncommitted_changes ⟨7, 0, 0⟩ "repo").1 = false ↔
      (0 : Int) = 0 ∧ (0 : Int) = 0) ∧
    ((uncommitted_changes ⟨7, 0, 0⟩ "repo").1 = true ↔
      ((0 : Int) ≠ 0 ∨ (0 : Int) ≠ 0)) ∧
    (∀ r : Int,
      (uncommitted_changes { (⟨7, 0, 0⟩ : GitEnv) with refreshStatus := r }
          "repo").1 =
        (uncommitted_changes ⟨7, 0, 0⟩ "repo").1) :=
  uncommitted_changes_spec ⟨7, 0, 0⟩ "repo"

/-- Witness for C10 at a concrete environment with a failing diff-files. -/
theorem uncommitted_changes_short_circuit_witness :
    (uncommitted_changes ⟨0, 1, 0⟩ "repo").2 =
      [uicmd "repo", dfcmd "repo"] ∧
    dicmd "repo" ∉ (uncommitted_changes ⟨0, 1, 0⟩ "repo").2 :=
  uncommitted_changes_short_circuit ⟨0, 1, 0⟩ "repo" (by decide)

theorem isolation_step_output (root : String) (err : CalledProcessError)
    (c : String) (r : ExecResult) :
    (isolation_step root err c r).output = err.output ++ r.output := by
  by_cases hr : r.status = 0 <;> simp [isolation_step, _mock_exec, hr]

theorem isolation_step_keep (root : String) (err : CalledProcessError)
    (c : String) (r : ExecResult) (h : err.returncode ≠ 0) :
    (isolation_step root err c r).returncode = err.returncode ∧
      (isolation_step root err c r).cmd = err.cmd := by
  by_cases hr : r.status = 0 <;> simp [isolation_step, _mock_exec, hr, h]

theorem isolation_loop_output (run : Nat → ExecResult) (root : String)
    (cs : List String) : ∀ (i : Nat) (err : CalledProcessError),
    (isolation_loop run root cs i err).output =
      err.output ++ aggFrom run i cs.length := by
  induction cs with
  | nil => intro i err; simp [isolation_loop, aggFrom]
  | cons c cs ih =>
      intro i err
      simp only [isolation_loop, List.length_cons, aggFrom]
      rw [ih, isolation_step_output, List.append_assoc]

theorem isolation_loop_keep (run : Nat → ExecResult) (root : String)
    (cs : List String) : ∀ (i : Nat) (err : CalledProcessError),
    err.returncode ≠ 0 →
    (isolation_loop run root cs i err).returncode = err.returncode ∧
      (isolation_loop run root cs i err).cmd = err.cmd := by
  induction cs with
  | nil => intro i err _; simp [isolation_loop]
  | cons c cs ih =>
      intro i err h
      have hk := isolation_step_keep root err c (run i) h
      have hrec := ih (i + 1) (isolation_step root err c (run i))
        (by rw [hk.1]; exact h)
      simp only [isolation_loop]
      exact ⟨by rw [hrec.1, hk.1], by rw [hrec.2, hk.2]⟩

theorem isolation_loop_no_failure (run : Nat → ExecResult) (root : String)
    (cs : List String) : ∀ (i : Nat) (err : CalledProcessError),
    err.returncode = 0 → firstFailure run cs i = none →
    (isolation_loop run root cs i err).returncode = 0 ∧
      (isolation_loop run root cs i err).cmd = err.cmd := by
  induction cs with
  | nil => intro i err h _; simp [isolation_loop, h]
  | cons c cs ih =>
      intro i err h hff
      simp only [firstFailure] at hff
      by_cases hr : (run i).status ≠ 0
      · rw [if_pos hr] at hff; exact absurd hff (by simp)
      · rw [if_neg hr] at hff
        push_neg at hr
        have hstep : isolation_step root err c (run i) =
            { err with output := err.output ++ (run i).output } := by
          simp [isolation_step, _mock_exec, hr]
        simp only [isolation_loop, hstep]
        exact ih (i + 1) _ (by simp [h]) hff

theorem isolation_loop_first_failure (run : Nat → ExecResult) (root : String)
    (cs : List String) :
    ∀ (i k : Nat) (c : String) (err : CalledProcessError),
    err.returncode = 0 → firstFailure run cs i = some (k, c) →
    (isolation_loop run root cs i err).returncode = (run k).status ∧
      (isolation_loop run root cs i err).cmd =
        some (mock_exec_cmd root c mockdn false) := by
  induction cs with
  | nil => intro i k c err _ hff; simp [firstFailure] at hff
  | cons c' cs ih =>
      intro i k c err h hff
      simp only [firstFailure] at hff
      by_cases hr : (run i).status ≠ 0
      · rw [if_pos hr] at hff
        simp only [Option.some.injEq, Prod.mk.injEq] at hff
        obtain ⟨rfl, rfl⟩ := hff
        have hstep : isolation_step root err c' (run i) =
            ⟨(run i).status, some (mock_exec_cmd root c' mockdn false),
             err.output ++ (run i).output⟩ := by
          simp [isolation_step, _mock_exec, hr, h]
        simp only [isolation_loop, hstep]
        have hrec := isolation_loop_keep run root cs (i + 1)
          ⟨(run i).status, some (mock_exec_cmd root c' mockdn false),
           err.output ++ (run i).output⟩ (by simpa using hr)
        exact ⟨by rw [hrec.1], by rw [hrec.2]⟩
      · rw [if_neg hr] at hff
        push_neg at hr
        have hstep : isolation_step root err c' (run i) =
            { err with output := err.output ++ (run i).output } := by
          simp [isolation_step, _mock_exec, hr]
        simp only [isolation_loop, hstep]
        exact ih (i + 1) k c _ (by simp [h]) hff

theorem firstFailure_none_iff (run : Nat → ExecResult) (cs : List String) :
    ∀ i : Nat, firstFailure run cs i = none ↔
      ∀ k, k < cs.length → (run (i + k)).status = 0 := by
  induction cs with
  | nil => intro i; simp [firstFailure]
  | cons c cs ih =>
      intro i
      simp only [firstFailure, List.length_cons]
      by_cases hr : (run i).status ≠ 0
      · rw [if_pos hr]
        simp only [reduceCtorEq, false_iff, not_forall]
        exact ⟨0, by simpa using hr⟩
      · rw [if_neg hr]
        push_neg at hr
        rw [ih (i + 1)]
        constructor
        · intro h k hk
          cases k with
          | zero => simpa using hr
          | succ k =>
              have := h k (by omega)
              rwa [show i + 1 + k = i + (k + 1) from by omega] at this
        · intro h k hk
          have := h (k + 1) (by omega)
          rwa [show i + (k + 1) = i + 1 + k from by omega] at this

theorem firstFailure_of_min (run : Nat → ExecResult) (cs : List String) :
    ∀ (i k : Nat) (c : String), cs[k]? = some c →
      (run (i + k)).status ≠ 0 → (∀ j, j < k → (run (i + j)).status = 0) →
      firstFailure run cs i = some (i + k, c) := by
  induction cs with
  | nil => intro i k c hget _ _; simp at hget
  | cons c' cs ih =>
      intro i k c hget hfail hmin
      cases k with
      | zero =>
          simp only [List.getElem?_cons_zero, Option.some.injEq] at hget
          subst hget
          simp only [firstFailure]
          rw [if_pos (by simpa using hfail)]
          simp
      | succ k =>
          have h0 : (run i).status = 0 := by
            simpa using hmin 0 (Nat.succ_pos k)
          simp only [firstFailure]
          rw [if_neg (not_not_intro h0)]
          have hrec := ih (i + 1) k c (by simpa using hget)
            (by rwa [show i + 1 + k = i + (k + 1) from by omega])
            (by
              intro j hj
              have := hmin (j + 1) (by omega)
              rwa [show i + (j + 1) = i + 1 + j from by omega] at this)
          rw [hrec, show i + 1 + k = i + (k + 1) from by omega]

theorem firstFailure_some_status (run : Nat → ExecResult) (cs : List String) :
    ∀ (i k : Nat) (c : String), firstFailure run cs i = some (k, c) →
      (run k).status ≠ 0 := by
  induction cs with
  | nil => intro i k c h; simp [firstFailure] at h
  | cons c' cs ih =>
      intro i k c h
      simp only [firstFailure] at h
      by_cases hr : (run i).status ≠ 0
      · rw [if_pos hr] at h
        simp only [Option.some.injEq, Prod.mk.injEq] at h
        obtain ⟨rfl, rfl⟩ := h
        exact hr
      · rw [if_neg hr] at h
        exact ih (i + 1) k c h

theorem exec_isolation_reduce (env : IsolationEnv) (cmdlines : List String)
    (cwd : String) (dependencies : List String) (root : String)
    (h1 : env.rmResult.status = 0) (h2 : env.chownResult.status = 0) :
    _exec_isolation env cmdlines cwd dependencies root =
      ((if (isolation_loop env.run root cmdlines 0 ⟨0, none, []⟩).returncode ≠ 0
        then .error (isolation_loop env.run root cmdlines 0 ⟨0, none, []⟩)
        else .ok (isolation_loop env.run root cmdlines 0
          ⟨0, none, []⟩).output),
       [mock_exec_cmd root rmcmdl "." true, incmd root dependencies,
        cpcmd root cwd, mock_exec_cmd root chcmdl "." true] ++
         cmdlines.map (fun c => mock_exec_cmd root c mockdn false)) := by
  simp [_exec_isolation, _mock_exec, h1, h2]

theorem exec_isolation_error_returncode (env : IsolationEnv)
    (cmdlines : List String) (cwd : String) (dependencies : List String)
    (root : String) (e : CalledProcessError) :
    (_exec_isolation env cmdlines cwd dependencies root).1 = .error e →
      e.returncode ≠ 0 := by
  intro h
  by_cases h1 : env.rmResult.status = 0
  · by_cases h2 : env.chownResult.status = 0
    · rw [exec_isolation_reduce env cmdlines cwd dependencies root h1 h2] at h
      by_cases hrc :
          (isolation_loop env.run root cmdlines 0 ⟨0, none, []⟩).returncode = 0
      · simp [hrc] at h
      · simp only [if_pos hrc] at h
        simp only [Except.error.injEq] at h
        rw [← h]
        exact hrc
    · simp only [_exec_isolation, _mock_exec, if_pos h2] at h
      rw [if_neg (not_not_intro h1)] at h
      simp only [Except.error.injEq] at h
      rw [← h]
      exact h2
  · simp only [_exec_isolation, _mock_exec] at h
    rw [if_pos h1] at h
    simp only [Except.error.injEq] at h
    rw [← h]
    exact h1

theorem firstFailure_some_lt (run : Nat → ExecResult) (cs : List String) :
    ∀ (i k : Nat) (c : String), firstFailure run cs i = some (k, c) →
      i ≤ k ∧ k - i < cs.length := by
  induction cs with
  | nil => intro i k c h; simp [firstFailure] at h
  | cons c' cs ih =>
      intro i k c h
      simp only [firstFailure] at h
      by_cases hr : (run i).status ≠ 0
      · rw [if_pos hr] at h
        simp only [Option.some.injEq, Prod.mk.injEq] at h
        obtain ⟨rfl, rfl⟩ := h
        simp
      · rw [if_neg hr] at h
        obtain ⟨ha, hb⟩ := ih (i + 1) k c h
        exact ⟨by omega, by simp only [List.length_cons]; omega⟩

/-- C1: when the checked setup steps (staging-path removal and ownership fix)
succeed, `_exec_isolation` raises a `CalledProcessError` iff at least one
command of the batch exits with a non-zero status; the raised failure carries
the status and the wrapped command vector of the first failing command; when
no command fails, the session returns the aggregated output as success. -/
theorem exec_isolation_failure_spec (env : IsolationEnv)
    (cmdlines : List String) (cwd : String) (dependencies : List String)
    (root : String) (h1 : env.rmResult.status = 0)
    (h2 : env.chownResult.status = 0) :
    ((∃ e, (_exec_isolation env cmdlines cwd dependencies root).1 =
        .error e) ↔
      ∃ k, k < cmdlines.length ∧ (env.run k).status ≠ 0) ∧
    (∀ (e : CalledProcessError) (k : Nat) (c : String),
      (_exec_isolation env cmdlines cwd dependencies root).1 = .error e →
      cmdlines[k]? = some c → (env.run k).status ≠ 0 →
      (∀ j, j < k → (env.run j).status = 0) →
      e.returncode = (env.run k).status ∧
        e.cmd = some (mock_exec_cmd root c mockdn false)) ∧
    ((∀ k, k < cmdlines.length → (env.run k).status = 0) →
      (_exec_isolation env cmdlines cwd dependencies root).1 =
        .ok (aggFrom env.run 0 cmdlines.length)) := by
  rw [exec_isolation_reduce env cmdlines cwd dependencies root h1 h2]
  have hout := isolation_loop_output env.run root cmdlines 0 ⟨0, none, []⟩
  simp only [List.nil_append] at hout
  cases hff : firstFailure env.run cmdlines 0 with
  | none =>
      have hnf := isolation_loop_no_failure env.run root cmdlines 0
        ⟨0, none, []⟩ rfl hff
      rw [firstFailure_none_iff] at hff
      simp only [Nat.zero_add] at hff
      refine ⟨?_, ?_, ?_⟩
      · rw [if_neg (not_not_intro hnf.1)]
        constructor
        · rintro ⟨e, he⟩
          exact absurd he (by simp)
        · rintro ⟨k, hk, hfail⟩
          exact absurd (hff k hk) hfail
      · intro e k c he hget hfail hmin
        rw [if_neg (not_not_intro hnf.1)] at he
        exact absurd he (by simp)
      · intro _
        rw [if_neg (not_not_intro hnf.1), hout]
  | some p =>
      obtain ⟨k, c⟩ := p
      have hst := firstFailure_some_status env.run cmdlines 0 k c hff
      have hlt := firstFailure_some_lt env.run cmdlines 0 k c hff
      have hf := isolation_loop_first_failure env.run root cmdlines 0 k c
        ⟨0, none, []⟩ rfl hff
      have hne : (isolation_loop env.run root cmdlines 0
          ⟨0, none, []⟩).returncode ≠ 0 := by rw [hf.1]; exact hst
      refine ⟨?_, ?_, ?_⟩
      · rw [if_pos hne]
        constructor
        · intro _
          exact ⟨k, by omega, hst⟩
        · intro _
          exact ⟨_, rfl⟩
      · intro e k' c' he hget hfail hmin
        rw [if_pos hne] at he
        simp only [Except.error.injEq] at he
        have hmin' := firstFailure_of_min env.run cmdlines 0 k' c' hget
          (by simpa using hfail) (by simpa using hmin)
        rw [hff] at hmin'
        simp only [Nat.zero_add, Option.some.injEq, Prod.mk.injEq] at hmin'
        obtain ⟨rfl, rfl⟩ := hmin'
        rw [← he]
        exact ⟨hf.1, hf.2⟩
      · intro hall
        exact absurd (hall k (by omega)) hst

/-- Witness for C1: a one-command batch whose command fails with status 1. -/
theorem exec_isolation_failure_spec_witness :
    ((∃ e, (_exec_isolation sampleFailEnv ["x"] "cwd" [] "root").1 =
        .error e) ↔
      ∃ k, k < (["x"] : List String).length ∧
        (sampleFailEnv.run k).status ≠ 0) ∧
    (∀ (e : CalledProcessError) (k : Nat) (c : String),
      (_exec_isolation sampleFailEnv ["x"] "cwd" [] "root").1 = .error e →
      (["x"] : List String)[k]? = some c →
      (sampleFailEnv.run k).status ≠ 0 →
      (∀ j, j < k → (sampleFailEnv.run j).status = 0) →
      e.returncode = (sampleFailEnv.run k).status ∧
        e.cmd = some (mock_exec_cmd "root" c mockdn false)) ∧
    ((∀ k, k < (["x"] : List String).length →
        (sampleFailEnv.run k).status = 0) →
      (_exec_isolation sampleFailEnv ["x"] "cwd" [] "root").1 =
        .ok (aggFrom sampleFailEnv.run 0 (["x"] : List String).length)) :=
  exec_isolation_failure_spec sampleFailEnv ["x"] "cwd" [] "root" rfl rfl

/-- C2: when the checked setup steps succeed, the output carried by the
result of `_exec_isolation` — returned on success or carried by the raised
failure — is the concatenation, in invocation order, of every command's
output. -/
theorem exec_isolation_output_spec (env : IsolationEnv)
    (cmdlines : List String) (cwd : String) (dependencies : List String)
    (root : String) (h1 : env.rmResult.status = 0)
    (h2 : env.chownResult.status = 0) :
    (∀ out, (_exec_isolation env cmdlines cwd dependencies root).1 =
        .ok out → out = aggFrom env.run 0 cmdlines.length) ∧
    (∀ e, (_exec_isolation env cmdlines cwd dependencies root).1 =
        .error e → e.output = aggFrom env.run 0 cmdlines.length) := by
  rw [exec_isolation_reduce env cmdlines cwd dependencies root h1 h2]
  have hout := isolation_loop_output env.run root cmdlines 0 ⟨0, none, []⟩
  simp only [List.nil_append] at hout
  by_cases hrc : (isolation_loop env.run root cmdlines 0
      ⟨0, none, []⟩).returncode ≠ 0
  · rw [if_pos hrc]
    constructor
    · intro out hout'
      exact absurd hout' (by simp)
    · intro e he
      simp only [Except.error.injEq] at he
      rw [← he]
      exact hout
  · rw [if_neg hrc]
    constructor
    · intro out hout'
      simp only [Except.ok.injEq] at hout'
      rw [← hout']
      exact hout
    · intro e he
      exact absurd he (by simp)

/-- Witness for C2: a two-command batch, first command failing. -/
theorem exec_isolation_output_spec_witness :
    (∀ out, (_exec_isolation sampleFailEnv ["x", "y"] "cwd" [] "root").1 =
        .ok out → out = aggFrom sampleFailEnv.run 0
          (["x", "y"] : List String).length) ∧
    (∀ e, (_exec_isolation sampleFailEnv ["x", "y"] "cwd" [] "root").1 =
        .error e → e.output = aggFrom sampleFailEnv.run 0
          (["x", "y"] : List String).length) :=
  exec_isolation_output_spec sampleFailEnv ["x", "y"] "cwd" [] "root" rfl rfl

/-- C8: the exit statuses of the dependency-install step and of the copy-in
step are never consulted: changing them changes neither the result nor the
trace of an isolation session; and when the checked setup steps succeed the
session still runs every command of the batch. -/
theorem exec_isolation_ignores_setup_statuses (env : IsolationEnv)
    (cmdlines : List String) (cwd : String) (dependencies : List String)
    (root : String) (s t : Int) :
    (_exec_isolation { env with installStatus := s, copyinStatus := t }
        cmdlines cwd dependencies root =
      _exec_isolation env cmdlines cwd dependencies root) ∧
    (env.rmResult.status = 0 → env.chownResult.status = 0 →
      ∀ c ∈ cmdlines, mock_exec_cmd root c mockdn false ∈
        (_exec_isolation env cmdlines cwd dependencies root).2) := by
  refine ⟨rfl, ?_⟩
  intro h1 h2 c hc
  rw [exec_isolation_reduce env cmdlines cwd dependencies root h1 h2]
  exact List.mem_append_right _ (List.mem_map_of_mem _ hc)

/-- Witness for C8: a failing copy-in status (1) on a one-command batch. -/
theorem exec_isolation_ignores_setup_statuses_witness :
    (_exec_isolation
        { sampleOkEnv with installStatus := 4, copyinStatus := 1 }
        ["x"] "cwd" [] "root" =
      _exec_isolation sampleOkEnv ["x"] "cwd" [] "root") ∧
    (sampleOkEnv.rmResult.status = 0 → sampleOkEnv.chownResult.status = 0 →
      ∀ c ∈ (["x"] : List String), mock_exec_cmd "root" c mockdn false ∈
        (_exec_isolation sampleOkEnv ["x"] "cwd" [] "root").2) :=
  exec_isolation_ignores_setup_statuses sampleOkEnv ["x"] "cwd" [] "root" 4 1

/-- C3: `run_tests` returns true iff the isolation session did not raise; on
a raise it returns false and emits the failure's aggregated output, on
success it emits the returned output — in both cases without propagating the
exception. -/
theorem run_tests_catches (env : IsolationEnv) (tests cwd : String)
    (dependencies : List String) (root : String) :
    ((run_tests env tests cwd dependencies root).1 = true ↔
      ∃ out, (_exec_isolation env (test_cmdlines tests) cwd
        (dependencies ++ ["python-nose", "python3-nose"]) root).1 =
          .ok out) ∧
    (∀ e, (_exec_isolation env (test_cmdlines tests) cwd
        (dependencies ++ ["python-nose", "python3-nose"]) root).1 =
          .error e →
      (run_tests env tests cwd dependencies root).1 = false ∧
        (run_tests env tests cwd dependencies root).2.1 = e.output) ∧
    (∀ out, (_exec_isolation env (test_cmdlines tests) cwd
        (dependencies ++ ["python-nose", "python3-nose"]) root).1 =
          .ok out →
      (run_tests env tests cwd dependencies root).2.1 = out) := by
  unfold run_tests
  cases hres : (_exec_isolation env (test_cmdlines tests) cwd
      (dependencies ++ ["python-nose", "python3-nose"]) root).1 with
  | error e =>
      have hne := exec_isolation_error_returncode env (test_cmdlines tests)
        cwd (dependencies ++ ["python-nose", "python3-nose"]) root e hres
      simp [hres, hne]
  | ok output => simp [hres]

/-- Witness for C3: every test command fails with status 1. -/
theorem run_tests_catches_witness :
    ((run_tests sampleFailEnv "tests" "cwd" [] "root").1 = true ↔
      ∃ out, (_exec_isolation sampleFailEnv (test_cmdlines "tests") "cwd"
        ([] ++ ["python-nose", "python3-nose"]) "root").1 = .ok out) ∧
    (∀ e, (_exec_isolation sampleFailEnv (test_cmdlines "tests") "cwd"
        ([] ++ ["python-nose", "python3-nose"]) "root").1 = .error e →
      (run_tests sampleFailEnv "tests" "cwd" [] "root").1 = false ∧
        (run_tests sampleFailEnv "tests" "cwd" [] "root").2.1 = e.output) ∧
    (∀ out, (_exec_isolation sampleFailEnv (test_cmdlines "tests") "cwd"
        ([] ++ ["python-nose", "python3-nose"]) "root").1 = .ok out →
      (run_tests sampleFailEnv "tests" "cwd" [] "root").2.1 = out) :=
  run_tests_catches sampleFailEnv "tests" "cwd" [] "root"

theorem exec_isolation_trace_install (env : IsolationEnv)
    (cmdlines : List String) (cwd : String) (dependencies : List String)
    (root : String) (h1 : env.rmResult.status = 0) :
    incmd root dependencies ∈
      (_exec_isolation env cmdlines cwd dependencies root).2 := by
  by_cases h2 : env.chownResult.status = 0
  · rw [exec_isolation_reduce env cmdlines cwd dependencies root h1 h2]
    simp
  · simp [_exec_isolation, _mock_exec, h1, h2]

/-- C9: `run_tests` submits the caller's dependency list extended by
`python-nose` and `python3-nose` for installation into the root: the install
command with exactly that package list appears in the session's trace
(whatever the outcome of the test commands). -/
theorem run_tests_installs_nose (env : IsolationEnv) (tests cwd : String)
    (dependencies : List String) (root : String)
    (h1 : env.rmResult.status = 0) :
    incmd root (dependencies ++ ["python-nose", "python3-nose"]) ∈
      (run_tests env tests cwd dependencies root).2.2 := by
  have hmem := exec_isolation_trace_install env (test_cmdlines tests) cwd
    (dependencies ++ ["python-nose", "python3-nose"]) root h1
  unfold run_tests
  cases hres : (_exec_isolation env (test_cmdlines tests) cwd
      (dependencies ++ ["python-nose", "python3-nose"]) root).1 with
  | error e => simpa [hres] using hmem
  | ok output => simpa [hres] using hmem

/-- Witness for C9: failing tests still put the nose install in the trace. -/
theorem run_tests_installs_nose_witness :
    incmd "root" (["dep"] ++ ["python-nose", "python3-nose"]) ∈
      (run_tests sampleFailEnv "tests" "cwd" ["dep"] "root").2.2 :=
  run_tests_installs_nose sampleFailEnv "tests" "cwd" ["dep"] "root" rfl

theorem splitNl_flatten (cs : List Char) : (splitNl cs).flatten = cs := by
  induction cs with
  | nil => rfl
  | cons c rest ih =>
      by_cases hc : c = '\n'
      · subst hc
        simp [splitNl, ih]
      · have heq : splitNl (c :: rest) =
            match splitNl rest with
            | [] => [[c]]
            | l :: ls => (c :: l) :: ls := by
          simp [splitNl, hc]
        rw [heq]
        cases hsp : splitNl rest with
        | nil =>
            rw [hsp] at ih
            simp only [List.flatten_nil] at ih
            simp [← ih]
        | cons l ls =>
            rw [hsp] at ih
            simp only [List.flatten_cons] at ih ⊢
            rw [← ih]
            rfl

theorem splitNl_lines_end_newline (cs : List Char) :
    cs.getLast? = some '\n' →
    ∀ l ∈ splitNl cs, l.getLast? = some '\n' := by
  induction cs with
  | nil => intro h; simp at h
  | cons c rest ih =>
      intro h l hl
      by_cases hc : c = '\n'
      · subst hc
        simp only [splitNl, if_pos rfl] at hl
        rcases List.mem_cons.mp hl with rfl | hl'
        · rfl
        · cases hr : rest with
          | nil => subst hr; simp [splitNl] at hl'
          | cons r rs =>
              subst hr
              exact ih (by simpa [List.getLast?_cons_cons] using h) l hl'
      · have heq : splitNl (c :: rest) =
            match splitNl rest with
            | [] => [[c]]
            | l :: ls => (c :: l) :: ls := by
          simp [splitNl, hc]
        rw [heq] at hl
        cases hsp : splitNl rest with
        | nil =>
            rw [hsp] at hl
            have hrest : rest = [] := by
              have hfl := splitNl_flatten rest
              rw [hsp] at hfl
              simpa using hfl.symm
            subst hrest
            simp only [List.getLast?_singleton, Option.some.injEq] at h
            exact absurd h hc
        | cons l0 ls =>
            rw [hsp] at hl
            have hrest_ne : rest ≠ [] := by
              intro hr
              rw [hr] at hsp
              simp [splitNl] at hsp
            have hlast : rest.getLast? = some '\n' := by
              cases rest with
              | nil => exact absurd rfl hrest_ne
              | cons r rs => simpa [List.getLast?_cons_cons] using h
            have ihall := ih hlast
            rw [hsp] at ihall
            rcases List.mem_cons.mp hl with rfl | hl'
            · have h0 := ihall l0 (List.mem_cons_self _ _)
              cases l0 with
              | nil => simp at h0
              | cons x xs =>
                  rw [List.getLast?_cons_cons]
                  exact h0
            · exact ihall l (List.mem_cons_of_mem _ hl')

/-- C5 sanity instance: the claim's own end-to-end example holds on the
code. -/
theorem build_dnf_rewrite_example :
    build_dnf_rewrite "%global gitrev abCD012\nrest of original\n".data
        "bcDE123\n".data =
      some "%global gitrev bcDE123\nrest of original\n".data := by decide

/-- C5 counterexample: on the spec file `"%global gitrev abCD012\nrest of
original"` (no trailing newline) with revision output `"bcDE123"` (no
trailing newline), the code chops the final character of the remaining line
and of the revision, so the remaining line is not preserved verbatim and the
first line does not carry the revision output minus a trailing newline. -/
theorem build_dnf_rewrite_cex :
    build_dnf_rewrite "%global gitrev abCD012\nrest of original".data
        "bcDE123".data =
      some "%global gitrev bcDE12\nrest of origina\n".data ∧
    "%global gitrev bcDE12\nrest of origina\n".data ≠
      "%global gitrev bcDE123\nrest of original".data := by
  exact ⟨by decide, by decide⟩

/-- C5 (amended): for every spec file whose content ends with a newline and
every revision-query output ending with a newline, `build_dnf` rewrites the
file so that its first line is replaced by `%global gitrev ` followed by the
revision output minus its trailing newline, while every remaining line is
preserved verbatim (their concatenation with the original first line giving
back the original content). -/
theorem build_dnf_rewrite_amended (content archiveOut : List Char)
    (hc : content.getLast? = some '\n')
    (ha : archiveOut.getLast? = some '\n') :
    ∃ first rest, splitNl content = first :: rest ∧
      build_dnf_rewrite content archiveOut =
        some ("%global gitrev ".data ++ stripTrailingNewline archiveOut ++
          '\n' :: rest.flatten) ∧
      first ++ rest.flatten = content := by
  have hne : content ≠ [] := by rintro rfl; simp at hc
  cases hsp : splitNl content with
  | nil =>
      exfalso
      have hfl := splitNl_flatten content
      rw [hsp] at hfl
      exact hne (by simpa using hfl.symm)
  | cons first rest =>
      refine ⟨first, rest, rfl, ?_, ?_⟩
      · have hlines := splitNl_lines_end_newline content hc
        rw [hsp] at hlines
        have hmap : rest.map (fun l => l.dropLast ++ ['\n']) = rest := by
          have hid : rest.map (fun l => l.dropLast ++ ['\n']) =
              rest.map id := by
            apply List.map_congr_left
            intro x hx
            exact List.dropLast_append_getLast? '\n'
              (hlines x (List.mem_cons_of_mem _ hx))
          rw [hid, List.map_id]
        have hbd : build_dnf_rewrite content archiveOut =
            some (("%global gitrev ".data ++ archiveOut.dropLast ++
              ['\n']) ++
              (rest.map (fun l => l.dropLast ++ ['\n'])).flatten) := by
          unfold build_dnf_rewrite
          rw [hsp]
        rw [hbd, hmap]
        simp [stripTrailingNewline, ha, List.append_assoc]
      · have hfl := splitNl_flatten content
        rw [hsp] at hfl
        simpa using hfl

/-- Witness for the amended C5 at the claim's own example. -/
theorem build_dnf_rewrite_amended_witness :
    ("%global gitrev abCD012\nrest of original\n".data.getLast? =
      some '\n') ∧
    ∃ first rest,
      splitNl "%global gitrev abCD012\nrest of original\n".data =
        first :: rest ∧
      build_dnf_rewrite "%global gitrev abCD012\nrest of original\n".data
          "bcDE123\n".data =
        some ("%global gitrev ".data ++
          stripTrailingNewline "bcDE123\n".data ++ '\n' :: rest.flatten) ∧
      first ++ rest.flatten =
        "%global gitrev abCD012\nrest of original\n".data :=
  ⟨by decide,
   build_dnf_rewrite_amended "%global gitrev abCD012\nrest of original\n".data
     "bcDE123\n".data (by decide) (by decide)⟩

/-- C6: `build_rpms` raises its domain error (`ValueError('build failed')`,
distinct from a process-exception chain) iff mockchain reports a non-zero
exit status; on zero it returns normally. -/
theorem build_rpms_spec (mockchainStatus : Int) (sources : List String)
    (destination root : String) :
    ((build_rpms mockchainStatus sources destination root).1 =
        .error "build failed" ↔ mockchainStatus ≠ 0) ∧
    (mockchainStatus = 0 →
      (build_rpms mockchainStatus sources destination root).1 = .ok ()) := by
  unfold build_rpms
  by_cases h : mockchainStatus = 0 <;> simp [h]

/-- Witness for C6: a failing mockchain (status 1) on one SRPM. -/
theorem build_rpms_spec_witness :
    ((build_rpms 1 ["a.src.rpm"] "dest" "root").1 =
        .error "build failed" ↔ (1 : Int) ≠ 0) ∧
    ((1 : Int) = 0 →
      (build_rpms 1 ["a.src.rpm"] "dest" "root").1 = .ok ()) :=
  build_rpms_spec 1 ["a.src.rpm"] "dest" "root"

theorem foldl_pyOr_status (testFails : String → Bool) (L : List String) :
    ∀ init : Int,
    L.foldl (fun status arch =>
      pyOr (_test_on_arch testFails arch) status) init =
      (if L.any testFails then 1 else init) := by
  induction L with
  | nil => intro init; simp
  | cons a L ih =>
      intro init
      simp only [List.foldl_cons, List.any_cons]
      rw [ih]
      by_cases ha : testFails a
      · simp [ha, pyOr, _test_on_arch]
      · simp [ha, pyOr, _test_on_arch]

/-- C7: the driver processes the deduplicated architectures in ascending
sorted order — the processed list is sorted, duplicate-free, has exactly the
requested members, and is identical for any two requests with the same
members — and (absent uncommitted changes) the exit status is 1 iff at least
one requested architecture's test run reports failure, else 0. -/
theorem cli_main_spec (testFails : String → Bool) (l l' : List String)
    (h : ∀ a, a ∈ l ↔ a ∈ l') :
    processedArches l = processedArches l' ∧
    (processedArches l).Sorted (· ≤ ·) ∧
    (processedArches l).Nodup ∧
    (∀ a, a ∈ processedArches l ↔ a ∈ l) ∧
    cli_main false testFails l = (if l.any testFails then 1 else 0) := by
  have hperm : List.Perm l.dedup l'.dedup :=
    (List.perm_ext_iff_of_nodup (List.nodup_dedup l)
      (List.nodup_dedup l')).mpr (fun a => by
        simp only [List.mem_dedup]; exact h a)
  have hmem : ∀ a, a ∈ processedArches l ↔ a ∈ l := by
    intro a
    unfold processedArches
    rw [(List.mergeSort_perm l.dedup _).mem_iff, List.mem_dedup]
  refine ⟨?_, ?_, ?_, hmem, ?_⟩
  · unfold processedArches
    exact List.eq_of_perm_of_sorted
      ((List.mergeSort_perm _ _).trans
        (hperm.trans (List.mergeSort_perm _ _).symm))
      (List.sorted_mergeSort' _) (List.sorted_mergeSort' _)
  · exact List.sorted_mergeSort' _
  · unfold processedArches
    exact ((List.mergeSort_perm _ _).nodup_iff).mpr (List.nodup_dedup l)
  · have hany : (processedArches l).any testFails = l.any testFails := by
      rw [Bool.eq_iff_iff]
      simp only [List.any_eq_true]
      constructor
      · rintro ⟨x, hx, hfx⟩; exact ⟨x, (hmem x).mp hx, hfx⟩
      · rintro ⟨x, hx, hfx⟩; exact ⟨x, (hmem x).mpr hx, hfx⟩
    unfold cli_main
    rw [if_neg (by simp)]
    rw [foldl_pyOr_status, hany]

/-- Witness for C7: two requests with the same members, duplicates and
different order; the `i386` test run fails. -/
theorem cli_main_spec_witness :
    processedArches ["x86_64", "i386"] =
      processedArches ["i386", "x86_64", "i386"] ∧
    (processedArches ["x86_64", "i386"]).Sorted (· ≤ ·) ∧
    (processedArches ["x86_64", "i386"]).Nodup ∧
    (∀ a, a ∈ processedArches ["x86_64", "i386"] ↔
      a ∈ (["x86_64", "i386"] : List String)) ∧
    cli_main false (fun a => a == "i386") ["x86_64", "i386"] =
      (if (["x86_64", "i386"] : List String).any (fun a => a == "i386")
       then 1 else 0) :=
  cli_main_spec (fun a => a == "i386") ["x86_64", "i386"]
    ["i386", "x86_64", "i386"] (by intro a; simp; tauto)
